import Mathlib

/-!
Verification of the MediTrack monitoring pipeline.

Shallow embedding of the polling / state-tracking / anomaly-detection core:
Python floats are modelled as rationals, fallible or optional dictionary
fields as `Option`, Python truthiness (`x or y`, `if x:`) is made explicit
in dedicated helpers, and the SQLite history table is modelled as an
association list keyed on (icao24, timestamp).
-/

namespace MediTrack

/-- Python `round` (banker's rounding, half to even) on an exact rational,
to an integer. -/
def pyRoundInt (x : ℚ) : ℤ :=
  let f := ⌊x⌋
  let r := x - f
  if r < 1/2 then f
  else if 1/2 < r then f + 1
  else if f % 2 = 0 then f else f + 1

/-- Python `round(x, d)` for d decimal digits (exact-rational model of the
float rounding used for display values in anomaly details). -/
def pyround (x : ℚ) (d : ℕ) : ℚ :=
  (pyRoundInt (x * 10 ^ d) : ℚ) / 10 ^ d

/-- Python `a or b` on two optional numbers: `None` and `0` are falsy. -/
def pyOrQ : Option ℚ → Option ℚ → Option ℚ
  | some v, b => if v = 0 then b else some v
  | none, b => b

/-- m/s to knots factor 1.94384 used by the detector. -/
def knotsPerMs : ℚ := 194384 / 100000

/-- metres to feet factor 3.28084 used by the detector. -/
def ftPerM : ℚ := 328084 / 100000

/-- m/s to ft/min factor 196.85 used by the detector. -/
def ftMinPerMs : ℚ := 19685 / 100

/-- A state dictionary as passed around the pipeline (the union of the keys
read by the detector, the state store and the monitor); a `none` field is an
absent dictionary key. -/
structure AState where
  baro_altitude : Option ℚ := none
  geo_altitude : Option ℚ := none
  vertical_rate : Option ℚ := none
  velocity : Option ℚ := none
  heading : Option ℚ := none
  true_track : Option ℚ := none
  last_contact : Option ℚ := none
  timestamp : Option ℚ := none
  on_ground : Option Bool := none
  callsign : Option String := none
  squawk : Option String := none
  latitude : Option ℚ := none
  longitude : Option ℚ := none
deriving DecidableEq

/-- `state.get('last_contact') or state.get('timestamp', 0)` (Python `or`:
a zero or absent last_contact falls back to the timestamp, default 0). -/
def timeOf (s : AState) : ℚ :=
  match s.last_contact with
  | some v => if v = 0 then s.timestamp.getD 0 else v
  | none => s.timestamp.getD 0

/-- `state.get('baro_altitude') or state.get('geo_altitude')`. -/
def altOf (s : AState) : Option ℚ :=
  pyOrQ s.baro_altitude s.geo_altitude

/-- The open `details` map of an anomaly record, with one optional slot per
key the detector ever writes. -/
structure Details where
  altitude_drop_ft : Option ℚ := none
  previous_altitude_ft : Option ℚ := none
  current_altitude_ft : Option ℚ := none
  time_window_seconds : Option ℚ := none
  vertical_rate_ft_min : Option ℚ := none
  threshold_ft_min : Option ℚ := none
  altitude_ft : Option ℚ := none
  velocity_knots : Option ℚ := none
  threshold_knots : Option ℚ := none
  velocity_ms : Option ℚ := none
  baseline_velocity_knots : Option ℚ := none
  current_velocity_knots : Option ℚ := none
  increase_percent : Option ℚ := none
  absolute_increase_knots : Option ℚ := none
  baseline_samples : Option ℕ := none
  aircraft_count : Option ℕ := none
  time_span_seconds : Option ℚ := none
  aircraft : List (String × Option String) := []
  squawk_code : Option String := none
  squawk_type : Option String := none
  callsign : Option String := none
  large_heading_changes : Option ℕ := none
  total_changes : Option ℕ := none
  average_change : Option ℚ := none
  average_altitude_ft : Option ℚ := none
  average_velocity_knots : Option ℚ := none
deriving DecidableEq

/-- An anomaly record: icao24 (null for fleet-level anomalies), kind,
severity and details. -/
structure Anomaly where
  icao24 : Option String
  atype : String
  severity : String
  details : Details
deriving DecidableEq

/-- The five detector thresholds of AnomalyDetector.__init__ with their
default values. -/
structure DetectorCfg where
  speed_threshold_knots : ℚ := 150
  multi_launch_window_seconds : ℚ := 300
  rapid_climb_rate_ft_min : ℚ := 2000
  rapid_descent_ft : ℚ := 1000
  rapid_descent_window_seconds : ℚ := 30
deriving DecidableEq

/-- `history[-4:-1] if len(history) >= 4 else history[:-1]`. -/
def baselineStates (history : List AState) : List AState :=
  if 4 ≤ history.length then (history.drop (history.length - 4)).take 3
  else history.take (history.length - 1)

/-- Velocities of the baseline states that are present and strictly
positive (`h.get('velocity') is not None and h.get('velocity', 0) > 0`). -/
def posVelocities (l : List AState) : List ℚ :=
  l.filterMap fun h =>
    match h.velocity with
    | some v => if 0 < v then some v else none
    | none => none

/-- AnomalyDetector.check_speed_anomaly. -/
def check_speed_anomaly (cfg : DetectorCfg) (icao24 : String) (current_state : AState)
    (_previous_state : Option AState) (history : List AState) : List Anomaly :=
  match current_state.velocity with
  | none => []
  | some velocity_ms =>
    let velocity_knots := velocity_ms * knotsPerMs
    let highSpeed : List Anomaly :=
      if cfg.speed_threshold_knots < velocity_knots then
        [{ icao24 := some icao24, atype := "high_speed", severity := "HIGH",
           details := { velocity_knots := some (pyround velocity_knots 1),
                        threshold_knots := some cfg.speed_threshold_knots,
                        velocity_ms := some (pyround velocity_ms 1) } }]
      else []
    let sudden : List Anomaly :=
      if 2 ≤ history.length then
        let baseline_velocities := posVelocities (baselineStates history)
        if baseline_velocities.isEmpty then []
        else
          let avg_baseline_ms := baseline_velocities.sum / baseline_velocities.length
          let avg_baseline_knots := avg_baseline_ms * knotsPerMs
          if 0 < avg_baseline_ms ∧ 30 < velocity_knots then
            let speed_increase_pct := ((velocity_ms - avg_baseline_ms) / avg_baseline_ms) * 100
            let absolute_increase_knots := velocity_knots - avg_baseline_knots
            if 60 < speed_increase_pct ∧ 20 < absolute_increase_knots then
              [{ icao24 := some icao24, atype := "sudden_speed_increase", severity := "MEDIUM",
                 details := { baseline_velocity_knots := some (pyround avg_baseline_knots 1),
                              current_velocity_knots := some (pyround velocity_knots 1),
                              increase_percent := some (pyround speed_increase_pct 1),
                              absolute_increase_knots := some (pyround absolute_increase_knots 1),
                              baseline_samples := some baseline_velocities.length } }]
            else []
          else []
      else []
    highSpeed ++ sudden

/-- The loop body condition of the rapid-descent scan: the past state is
within the window and its (baro-or-geo) altitude drop to the current
altitude `c` exceeds the threshold. -/
def rdQualifies (cfg : DetectorCfg) (cutoff c : ℚ) (h : AState) : Bool :=
  decide (cutoff ≤ timeOf h) &&
    (match altOf h with
     | some pa => decide (cfg.rapid_descent_ft < (pa - c) * ftPerM)
     | none => false)

/-- The rapid-climb section of check_altitude_anomaly. -/
def climb_anomalies (cfg : DetectorCfg) (icao24 : String)
    (current_state : AState) : List Anomaly :=
  match current_state.vertical_rate with
  | none => []
  | some vertical_rate =>
    let vertical_rate_ft_min := vertical_rate * ftMinPerMs
    if cfg.rapid_climb_rate_ft_min < vertical_rate_ft_min then
      [{ icao24 := some icao24, atype := "rapid_climb", severity := "HIGH",
         details := { vertical_rate_ft_min := some (pyround vertical_rate_ft_min 0),
                      threshold_ft_min := some cfg.rapid_climb_rate_ft_min,
                      altitude_ft :=
                        match altOf current_state with
                        | some a => if a = 0 then none else some (pyround (a * ftPerM) 0)
                        | none => none } }]
    else []

/-- The rapid-descent scan of check_altitude_anomaly: walk the history as
given (newest first in the pipeline) and report the first qualifying
entry, breaking after one report. -/
def rapid_descent_anomalies (cfg : DetectorCfg) (icao24 : String)
    (current_state : AState) (history : List AState) : List Anomaly :=
  match altOf current_state with
  | none => []
  | some c =>
    if history.isEmpty then []
    else
      let cutoff_time := timeOf current_state - cfg.rapid_descent_window_seconds
      match history.find? (rdQualifies cfg cutoff_time c) with
      | some past_state =>
        match altOf past_state with
        | some past_altitude =>
          [{ icao24 := some icao24, atype := "rapid_descent", severity := "CRITICAL",
             details := { altitude_drop_ft := some (pyround ((past_altitude - c) * ftPerM) 0),
                          previous_altitude_ft := some (pyround (past_altitude * ftPerM) 0),
                          current_altitude_ft := some (pyround (c * ftPerM) 0),
                          time_window_seconds := some cfg.rapid_descent_window_seconds } }]
        | none => []
      | none => []

/-- AnomalyDetector.check_altitude_anomaly: the rapid-climb check followed
by the rapid-descent history scan. -/
def check_altitude_anomaly (cfg : DetectorCfg) (icao24 : String) (current_state : AState)
    (_previous_state : Option AState) (history : List AState) : List Anomaly :=
  climb_anomalies cfg icao24 current_state ++
    rapid_descent_anomalies cfg icao24 current_state history

/-- The emergency squawk table of AnomalyDetector.__init__. -/
def emergency_squawks : List (String × String) :=
  [("7500", "hijack"), ("7600", "radio_failure"), ("7700", "emergency")]

/-- AnomalyDetector.check_emergency_squawk. -/
def check_emergency_squawk (icao24 : String) (current_state : AState) : List Anomaly :=
  match current_state.squawk with
  | none => []
  | some squawk =>
    if squawk = "" then []
    else
      match emergency_squawks.find? (fun p => p.1 = squawk) with
      | some p =>
        [{ icao24 := some icao24, atype := String.append "emergency_squawk_" p.2,
           severity := "CRITICAL",
           details := { squawk_code := some squawk, squawk_type := some p.2,
                        callsign := current_state.callsign } }]
      | none => []

/-- One adjacent heading change with 360-degree wrap handling, as coded:
take the absolute difference and reflect it when above 180. -/
def wrapDelta (a b : ℚ) : ℚ :=
  let change := |b - a|
  if 180 < change then 360 - change else change

/-- Wrap-adjusted deltas of all adjacent history pairs whose headings are
both present. -/
def headingChanges (history : List AState) : List ℚ :=
  (history.zip history.tail).filterMap fun p =>
    match p.1.heading, p.2.heading with
    | some prev, some curr => some (wrapDelta prev curr)
    | _, _ => none

/-- Altitudes of the last-5 window that are truthy (`h.get('baro_altitude')
or h.get('geo_altitude')` used both as filter and as value). -/
def nonzeroAlts (l : List AState) : List ℚ :=
  l.filterMap fun h =>
    match altOf h with
    | some a => if a = 0 then none else some a
    | none => none

/-- Velocities of the last-5 window that are truthy (`if h.get('velocity')`). -/
def nonzeroVels (l : List AState) : List ℚ :=
  l.filterMap fun h =>
    match h.velocity with
    | some v => if v = 0 then none else some v
    | none => none

/-- AnomalyDetector.check_flight_pattern (erratic heading and hovering). -/
def check_flight_pattern (icao24 : String) (_current_state : AState)
    (history : List AState) : List Anomaly :=
  if history.length < 3 then []
  else
    let heading_changes := headingChanges history
    let large_changes := heading_changes.filter (fun c => decide (90 < c))
    let erratic : List Anomaly :=
      if 3 ≤ large_changes.length then
        [{ icao24 := some icao24, atype := "erratic_heading", severity := "MEDIUM",
           details := { large_heading_changes := some large_changes.length,
                        total_changes := some heading_changes.length,
                        average_change := some (if heading_changes.isEmpty then 0
                          else pyround (heading_changes.sum / heading_changes.length) 1) } }]
      else []
    let hovering : List Anomaly :=
      if 5 ≤ history.length then
        let last5 := history.drop (history.length - 5)
        let altitudes := nonzeroAlts last5
        let velocities := nonzeroVels last5
        if 3 ≤ altitudes.length ∧ 3 ≤ velocities.length then
          let avg_altitude_ft := altitudes.sum / altitudes.length * ftPerM
          let avg_velocity_knots := velocities.sum / velocities.length * knotsPerMs
          if 5000 < avg_altitude_ft ∧ avg_velocity_knots < 30 then
            [{ icao24 := some icao24, atype := "hovering_high_altitude", severity := "LOW",
               details := { average_altitude_ft := some (pyround avg_altitude_ft 0),
                            average_velocity_knots := some (pyround avg_velocity_knots 1) } }]
          else []
        else []
      else []
    erratic ++ hovering

/-- One collected ground-to-air transition of check_multiple_launch. -/
structure LaunchRec where
  icao24 : String
  timestamp : ℚ
  callsign : Option String
deriving DecidableEq

/-- Dictionary lookup `m.get(k)` on a state map modelled as an association
list with unique keys. -/
def lookupState (m : List (String × AState)) (k : String) : Option AState :=
  (m.find? (fun p => p.1 = k)).map (fun p => p.2)

/-- The launches collected by check_multiple_launch: previous state exists
and is truthy on on_ground, current on_ground is falsy (Python
`if previous_on_ground and not current_on_ground`). -/
def launchesOf (current_states previous_states : List (String × AState)) : List LaunchRec :=
  current_states.filterMap fun p =>
    match lookupState previous_states p.1 with
    | some previous_state =>
      if previous_state.on_ground = some true ∧ ¬ (p.2.on_ground = some true) then
        some { icao24 := p.1, timestamp := timeOf p.2, callsign := p.2.callsign }
      else none
    | none => none

/-- Python `max` over a list (only used on nonempty lists). -/
def listMax : List ℚ → ℚ
  | [] => 0
  | x :: xs => xs.foldl max x

/-- Python `min` over a list (only used on nonempty lists). -/
def listMin : List ℚ → ℚ
  | [] => 0
  | x :: xs => xs.foldl min x

/-- AnomalyDetector.check_multiple_launch. -/
def check_multiple_launch (cfg : DetectorCfg)
    (current_states previous_states : List (String × AState)) : List Anomaly :=
  let launches := launchesOf current_states previous_states
  if 3 ≤ launches.length then
    let timestamps := launches.map (fun l => l.timestamp)
    let time_span := listMax timestamps - listMin timestamps
    if time_span ≤ cfg.multi_launch_window_seconds then
      [{ icao24 := none, atype := "multiple_launch", severity := "CRITICAL",
         details := { aircraft_count := some launches.length,
                      time_span_seconds := some time_span,
                      aircraft := launches.map (fun l => (l.icao24, l.callsign)) } }]
    else []
  else []

/-- AnomalyDetector.detect_anomalies: the four per-aircraft checks for each
entry of the current map, then the cross-fleet launch check. -/
def detect_anomalies (cfg : DetectorCfg)
    (current_states previous_states : List (String × AState))
    (state_history : List (String × List AState)) : List Anomaly :=
  (current_states.flatMap fun p =>
    let previous_state := lookupState previous_states p.1
    let history := ((state_history.find? (fun q => q.1 = p.1)).map (fun q => q.2)).getD []
    check_speed_anomaly cfg p.1 p.2 previous_state history ++
    check_altitude_anomaly cfg p.1 p.2 previous_state history ++
    check_emergency_squawk p.1 p.2 ++
    check_flight_pattern p.1 p.2 history) ++
  check_multiple_launch cfg current_states previous_states

/-- One step of the brute-force nearest search: keep the smaller of the
best distance so far and the distance to the next point. -/
def nearestStep (d : ℚ → ℚ → ℚ → ℚ → ℚ) (lat lon : ℚ) (best : Option ℚ)
    (p : ℚ × ℚ) : Option ℚ :=
  match best with
  | none => some (d lat lon p.1 p.2)
  | some b => if d lat lon p.1 p.2 < b then some (d lat lon p.1 p.2) else some b

/-- geo_context.distance_to_nearest_airport, abstracted over the great
circle distance function `d` (haversine is transcendental): the brute force
minimum over the airport point set; `none` models the float infinity
returned when the point set is empty. -/
def distanceToNearestAirport (d : ℚ → ℚ → ℚ → ℚ → ℚ) (airports : List (ℚ × ℚ))
    (lat lon : ℚ) : Option ℚ :=
  airports.foldl (nearestStep d lat lon) none

/-- geo_context.is_near_airport: nearest distance at most the radius
(infinity over an empty set is never within a finite radius). -/
def is_near_airport (d : ℚ → ℚ → ℚ → ℚ → ℚ) (airports : List (ℚ × ℚ))
    (lat lon radius_km : ℚ) : Bool :=
  match distanceToNearestAirport d airports lat lon with
  | some dist => decide (dist ≤ radius_km)
  | none => false

/-- The suppression condition of the geo filter loop in
MonitorService.process_state_changes: the anomaly is a rapid_descent, its
icao24 is truthy and found in the current map, latitude, longitude and
vertical_rate are all present, the rate is negative and the position is
near an airport. -/
def suppressAsLanding (d : ℚ → ℚ → ℚ → ℚ → ℚ) (airports : List (ℚ × ℚ)) (radius_km : ℚ)
    (current_states : List (String × AState)) (a : Anomaly) : Bool :=
  decide (a.atype = "rapid_descent") &&
    (match a.icao24 with
     | some i =>
       if i = "" then false
       else
         match lookupState current_states i with
         | some st =>
           match st.latitude, st.longitude, st.vertical_rate with
           | some lat, some lon, some vr =>
             decide (vr < 0) && is_near_airport d airports lat lon radius_km
           | _, _, _ => false
         | none => false
     | none => false)

/-- The geo filter of MonitorService.process_state_changes: keep every
anomaly except the rapid descents suppressed as landings. -/
def geoFilterAnomalies (d : ℚ → ℚ → ℚ → ℚ → ℚ) (airports : List (ℚ × ℚ)) (radius_km : ℚ)
    (current_states : List (String × AState)) (anomalies : List Anomaly) : List Anomaly :=
  anomalies.filter (fun a => ! suppressAsLanding d airports radius_km current_states a)

/-- A Python value as found in a provider state tuple slot. -/
inductive PyVal where
  | pynone : PyVal
  | num : ℚ → PyVal
  | str : String → PyVal
  | bool : Bool → PyVal
deriving DecidableEq

/-- Python truthiness of a tuple slot value. -/
def PyVal.truthy : PyVal → Bool
  | .pynone => false
  | .num q => decide (q ≠ 0)
  | .str s => decide (s ≠ "")
  | .bool b => b

/-- Indexing a positional provider tuple; a missing index behaves like the
`len(state) > i` guard failing. -/
def tupleGet (state : List PyVal) (i : ℕ) : PyVal :=
  state.getD i PyVal.pynone

/-- `state[i] if len(state) > i and state[i] else None`. -/
def truthyField (state : List PyVal) (i : ℕ) : Option PyVal :=
  let v := tupleGet state i
  if v.truthy then some v else none

/-- `state[i] if len(state) > i and state[i] is not None else None`
(used only for longitude and latitude). -/
def presentField (state : List PyVal) (i : ℕ) : Option PyVal :=
  let v := tupleGet state i
  if v = PyVal.pynone then none else some v

/-- The state dictionary built per matched aircraft by
MonitorService.poll_aircraft_states from the provider positional tuple. -/
structure RawStateDict where
  icao24 : String
  callsign : Option PyVal
  origin_country : Option PyVal
  time_position : Option PyVal
  last_contact : Option PyVal
  longitude : Option PyVal
  latitude : Option PyVal
  baro_altitude : Option PyVal
  on_ground : Option PyVal
  velocity : Option PyVal
  true_track : Option PyVal
  vertical_rate : Option PyVal
  sensors : Option PyVal
  geo_altitude : Option PyVal
  squawk : Option PyVal
  spi : Option PyVal
  position_source : Option PyVal
  timestamp : ℚ
deriving DecidableEq

/-- The dictionary literal of poll_aircraft_states (opensky_client's
get_aircraft_states builds the same literal): every field except longitude
and latitude goes through the truthiness guard. -/
def pollStateFor (state : List PyVal) (icao24 : String) (now : ℚ) : RawStateDict :=
  { icao24 := icao24
    callsign := truthyField state 1
    origin_country := truthyField state 2
    time_position := truthyField state 3
    last_contact := truthyField state 4
    longitude := presentField state 5
    latitude := presentField state 6
    baro_altitude := truthyField state 7
    on_ground := truthyField state 8
    velocity := truthyField state 9
    true_track := truthyField state 10
    vertical_rate := truthyField state 11
    sensors := truthyField state 12
    geo_altitude := truthyField state 13
    squawk := truthyField state 14
    spi := truthyField state 15
    position_source := truthyField state 16
    timestamp := now }

/-- A provider tuple whose positional slots 1, 5, 6, 7, 8 and 9 carry the
falsy values empty callsign, longitude 0, latitude 0, baro_altitude 0,
on_ground false and velocity 0. -/
def zeroFieldsTuple : List PyVal :=
  [PyVal.str "abc123", PyVal.str "", PyVal.str "United States", PyVal.num 3,
   PyVal.num 4, PyVal.num 0, PyVal.num 0, PyVal.num 0, PyVal.bool false,
   PyVal.num 0]

/-- Previous map: three aircraft on the ground. -/
def launchPrevMap : List (String × AState) :=
  [("aaa111", { on_ground := some true }), ("bbb222", { on_ground := some true }),
   ("ccc333", { on_ground := some true })]

/-- Current map: the same three aircraft, on_ground absent (as the poll
normalises false to absent), all heard at the same second. -/
def launchCurMap : List (String × AState) :=
  [("aaa111", { last_contact := some 100 }), ("bbb222", { last_contact := some 100 }),
   ("ccc333", { last_contact := some 100 })]

/-- Four history polls at 40, 42, 41 and 43 m/s. -/
def speedHist : List AState :=
  [{ velocity := some 40 }, { velocity := some 42 }, { velocity := some 41 },
   { velocity := some 43 }]

/-- A current state at 90 m/s. -/
def speedCur : AState := { velocity := some 90 }

/-- A current state at 800 m barometric altitude, heard at epoch 1000. -/
def rdCur : AState := { baro_altitude := some 800, last_contact := some 1000 }

/-- A single history entry 20 seconds older at 1200 m. -/
def rdHist : List AState :=
  [{ baro_altitude := some 1200, last_contact := some 980 }]

/-- One row of the aircraft_history table (the autoincrement id column is
not modelled; rows are keyed on the unique (icao24, timestamp)). -/
structure HistRow where
  latitude : Option ℚ
  longitude : Option ℚ
  altitude : Option ℚ
  velocity : Option ℚ
  on_ground : ℤ
  vertical_rate : Option ℚ
  callsign : Option String
  heading : Option ℚ
  squawk : Option String
  last_contact : Option ℚ
deriving DecidableEq

/-- The column values save_state_snapshot extracts from a state dictionary:
altitude is baro-or-geo, on_ground becomes 1 if truthy else 0, heading is
taken from true_track. -/
def snapshotRow (state : AState) : HistRow :=
  { latitude := state.latitude
    longitude := state.longitude
    altitude := pyOrQ state.baro_altitude state.geo_altitude
    velocity := state.velocity
    on_ground := if state.on_ground = some true then 1 else 0
    vertical_rate := state.vertical_rate
    callsign := state.callsign
    heading := state.true_track
    squawk := state.squawk
    last_contact := state.last_contact }

/-- The aircraft_history table as a map (icao24, timestamp) to row. -/
abbrev HistoryDb := List ((String × ℤ) × HistRow)

/-- StateTracker.save_state_snapshot: INSERT OR REPLACE keyed on the
UNIQUE(icao24, timestamp) constraint, icao24 uppercased. -/
def save_state_snapshot (db : HistoryDb) (icao24 : String) (state : AState)
    (timestamp : ℤ) : HistoryDb :=
  let key := (icao24.toUpper, timestamp)
  (key, snapshotRow state) :: db.filter (fun r => decide (r.1 ≠ key))

/-- Row lookup by (icao24, timestamp) key. -/
def dbLookup (db : HistoryDb) (key : String × ℤ) : Option HistRow :=
  (db.find? (fun r => decide (r.1 = key))).map (fun r => r.2)

/-- RateLimiter(max_calls, period) parameters. -/
structure LimiterCfg where
  max_calls : ℕ
  period : ℚ
deriving DecidableEq

/-- Drop recorded calls outside the sliding window ending at `now`. -/
def pruneCalls (period now : ℚ) (calls : List ℚ) : List ℚ :=
  calls.filter (fun t => decide (now - t < period))

/-- One admission of the RateLimiter wrapper at wall-clock time `now`:
trim the window, sleep past the oldest in-window call when full
(time.sleep modelled as advancing the clock by exactly the requested
amount), re-trim, and record the admission. Returns the admission time and
the new calls list. -/
def acquire (cfg : LimiterCfg) (calls : List ℚ) (now : ℚ) : ℚ × List ℚ :=
  let c1 := pruneCalls cfg.period now calls
  if cfg.max_calls ≤ c1.length then
    match c1 with
    | [] => (now, [now])
    | t0 :: _ =>
      let sleep_time := cfg.period - (now - t0) + 1/10
      if 0 < sleep_time then
        let now2 := now + sleep_time
        (now2, pruneCalls cfg.period now2 c1 ++ [now2])
      else (now, c1 ++ [now])
  else (now, c1 ++ [now])

/-- Run the limiter over a sequence of request arrival times, returning the
admission times in order. -/
def runLimiter (cfg : LimiterCfg) : List ℚ → List ℚ → List ℚ
  | _, [] => []
  | calls, r :: rest =>
    let a := acquire cfg calls r
    a.1 :: runLimiter cfg a.2 rest

/-- Arrival times are admissible: each request arrives no earlier than any
timestamp the limiter has recorded (real arrivals are sequential, so each
one is at or after the previous admission). -/
def goodReqs (cfg : LimiterCfg) : List ℚ → List ℚ → Bool
  | _, [] => true
  | calls, r :: rest =>
    calls.all (fun t => decide (t ≤ r)) && goodReqs cfg (acquire cfg calls r).2 rest

/-- Invariant tying the limiter state to the trace of admissions `T` whose
last admission happened at `L`: the state is exactly the in-window suffix
of the trace and never exceeds max_calls. -/
def LimState (cfg : LimiterCfg) (T s : List ℚ) (L : ℚ) : Prop :=
  T.Sorted (fun a b => a ≤ b) ∧ (∀ t ∈ T, t ≤ L) ∧ (T ≠ [] → L ∈ T) ∧
  s = T.filter (fun t => decide (L - t < cfg.period)) ∧ s.length ≤ cfg.max_calls

/-- Per-admission contract: at every admitted call, the admissions within
the trailing window of length `period` (that call included) number at most
`max_calls`. -/
def winOK (cfg : LimiterCfg) (admitted : List ℚ) : Prop :=
  ∀ l₁ t l₂, admitted = l₁ ++ t :: l₂ →
    ((l₁ ++ [t]).filter (fun u => decide (t - u < cfg.period))).length ≤ cfg.max_calls

/-- A cached or served response body, modelled as a JSON object
(association list); Python truthiness of a dict is non-emptiness. -/
abbrev Body := List (String × ℚ)

/-- The response cache: key to (body, file mtime). -/
abbrev Cache := List (String × Body × ℚ)

/-- Entry lookup by cache key. -/
def cacheLookup (cache : Cache) (key : String) : Option (Body × ℚ) :=
  (cache.find? (fun e => decide (e.1 = key))).map (fun e => e.2)

/-- OpenSkyClient._get_cached_response: nothing without a cache dir, on a
missing entry, or when the entry age exceeds max_age; else the stored
body. -/
def get_cached_response (cacheEnabled : Bool) (cache : Cache) (key : String)
    (max_age now : ℚ) : Option Body :=
  if !cacheEnabled then none
  else
    match cacheLookup cache key with
    | none => none
    | some e => if max_age < now - e.2 then none else some e.1

/-- OpenSkyClient._cache_response: overwrite the cache file for the key
(its mtime becomes the write time); no-op without a cache dir. -/
def cache_response (cacheEnabled : Bool) (cache : Cache) (key : String)
    (data : Body) (now : ℚ) : Cache :=
  if cacheEnabled then (key, data, now) :: cache.filter (fun e => decide (e.1 ≠ key))
  else cache

/-- What one _make_request call produced: the returned body, whether the
rate-limited network request ran, and the cache afterwards. -/
structure RequestOutcome where
  body : Body
  limiterUsed : Bool
  cacheAfter : Cache
deriving DecidableEq

/-- OpenSkyClient._make_request on the success path: consult the cache
first (`if cached:` is Python truthiness, so an empty cached body falls
through), otherwise perform the rate-limited request whose successful body
`network` is then cached when use_cache is set. -/
def make_request (use_cache cacheEnabled : Bool) (cache : Cache) (key : String)
    (cache_max_age now : ℚ) (network : Body) : RequestOutcome :=
  let doRequest : RequestOutcome :=
    { body := network, limiterUsed := true,
      cacheAfter := if use_cache then cache_response cacheEnabled cache key network now
        else cache }
  if use_cache then
    match get_cached_response cacheEnabled cache key cache_max_age now with
    | some cached =>
      if cached.isEmpty then doRequest
      else { body := cached, limiterUsed := false, cacheAfter := cache }
    | none => doRequest
  else doRequest

/-- An anomaly dictionary as the notifier sees it. -/
abbrev PyDict := List (String × PyVal)

/-- `'timestamp' in log_entry`. -/
def hasKeyD (d : PyDict) (k : String) : Bool :=
  d.any (fun p => decide (p.1 = k))

/-- Notifier._write_to_log: copy the anomaly, add the current epoch time
under 'timestamp' when the key is missing, append the copy as one log
line. Returns (the caller's dictionary after the call, the log lines). -/
def write_to_log (anomaly : PyDict) (log : List PyDict) (now : ℚ) :
    PyDict × List PyDict :=
  let log_entry :=
    if hasKeyD anomaly "timestamp" then anomaly
    else anomaly ++ [("timestamp", PyVal.num now)]
  (anomaly, log ++ [log_entry])

/-- Notifier.notify_anomaly: write to the log file when one is set. -/
def notify_anomaly (logFileSet : Bool) (anomaly : PyDict) (log : List PyDict)
    (now : ℚ) : PyDict × List PyDict :=
  if logFileSet then write_to_log anomaly log now else (anomaly, log)

/-- A sequence of save_state_snapshot calls applied in order. -/
def applySnapshots (db : HistoryDb) (ops : List (String × AState × ℤ)) : HistoryDb :=
  ops.foldl (fun d o => save_state_snapshot d o.1 o.2.1 o.2.2) db

/-- The transitions the multiple-launch claim describes literally: previous
state exists with on_ground true and the current on_ground is present and
false. -/
def claimLaunches (current_states previous_states : List (String × AState)) : List String :=
  current_states.filterMap fun p =>
    match lookupState previous_states p.1 with
    | some q =>
      if q.on_ground = some true ∧ p.2.on_ground = some false then some p.1 else none
    | none => none

/-! ## Theorems -/

/-- Claim C10: whenever the notifier writes an anomaly to the log file, the
line written contains a timestamp key: a missing one is inserted (current
epoch time) into a copy before serialising, and the caller's anomaly
dictionary is left unmodified. -/
theorem notify_anomaly_timestamp_always (anomaly : PyDict) (log : List PyDict) (now : ℚ) :
    (notify_anomaly true anomaly log now).1 = anomaly ∧
    ∃ entry, (notify_anomaly true anomaly log now).2 = log ++ [entry] ∧
      hasKeyD entry "timestamp" = true ∧
      (hasKeyD anomaly "timestamp" = true → entry = anomaly) ∧
      (hasKeyD anomaly "timestamp" = false →
        entry = anomaly ++ [("timestamp", PyVal.num now)]) := by
  refine ⟨rfl, ?_⟩
  by_cases h : hasKeyD anomaly "timestamp" = true
  · exact ⟨anomaly, by simp [notify_anomaly, write_to_log, h], h, fun _ => rfl,
      fun hf => by rw [h] at hf; cases hf⟩
  · refine ⟨anomaly ++ [("timestamp", PyVal.num now)],
      by simp [notify_anomaly, write_to_log, h], ?_, fun ht => absurd ht h, fun _ => rfl⟩
    simp [hasKeyD]

/-- Witness for C10 at a concrete anomaly without a timestamp key. -/
theorem notify_anomaly_timestamp_always_witness :
    (notify_anomaly true [("icao24", PyVal.str "A1B2C3")] [] 7).1 =
      [("icao24", PyVal.str "A1B2C3")] ∧
    ∃ entry, (notify_anomaly true [("icao24", PyVal.str "A1B2C3")] [] 7).2 = [] ++ [entry] ∧
      hasKeyD entry "timestamp" = true :=
  ⟨(notify_anomaly_timestamp_always [("icao24", PyVal.str "A1B2C3")] [] 7).1,
    (notify_anomaly_timestamp_always [("icao24", PyVal.str "A1B2C3")] [] 7).2.elim
      (fun e he => ⟨e, he.1, he.2.1⟩)⟩

/-- Lookup through the rows kept by a replacement on a different key is
lookup in the original table. -/
theorem hist_find_filter_ne (db : HistoryDb) (key k2 : String × ℤ) (h : k2 ≠ key) :
    (db.filter (fun r => decide (r.1 ≠ key))).find? (fun r => decide (r.1 = k2)) =
      db.find? (fun r => decide (r.1 = k2)) := by
  induction db with
  | nil => rfl
  | cons a l ih =>
    rw [List.filter_cons]
    by_cases hk : a.1 = key
    · have hf : decide (a.1 ≠ key) = false := by simp [hk]
      have h2 : decide (a.1 = k2) = false := by
        simp only [decide_eq_false_iff_not]
        intro hc
        exact h (by rw [← hc, hk])
      simp only [hf, Bool.false_eq_true, if_false, List.find?_cons, h2]
      exact ih
    · have hf : decide (a.1 ≠ key) = true := by simp [hk]
      simp only [hf, if_true, List.find?_cons]
      by_cases h2 : a.1 = k2
      · simp [h2]
      · have h2f : decide (a.1 = k2) = false := by simp [h2]
        simp only [h2f]
        exact ih

/-- One snapshot save keeps the per-(icao24, timestamp) uniqueness of the
history table. -/
theorem save_keys_nodup (db : HistoryDb) (icao24 : String) (st : AState) (ts : ℤ)
    (h : (db.map (fun r => r.1)).Nodup) :
    ((save_state_snapshot db icao24 st ts).map (fun r => r.1)).Nodup := by
  unfold save_state_snapshot
  rw [List.map_cons, List.nodup_cons]
  constructor
  · intro hmem
    rcases List.mem_map.mp hmem with ⟨r, hr, hr1⟩
    have := List.of_mem_filter hr
    rw [decide_eq_true_iff] at this
    exact this hr1
  · exact h.sublist ((List.filter_sublist db).map (fun r => r.1))

/-- Any run of snapshot saves from an empty store keeps keys unique. -/
theorem applySnapshots_keys_nodup (ops : List (String × AState × ℤ)) :
    ∀ db : HistoryDb, (db.map (fun r => r.1)).Nodup →
      ((applySnapshots db ops).map (fun r => r.1)).Nodup := by
  induction ops with
  | nil => exact fun db h => h
  | cons o rest ih =>
    intro db h
    exact ih _ (save_keys_nodup db o.1 o.2.1 o.2.2 h)

/-- Claim C7: save_state_snapshot is an upsert keyed on (hex24, timestamp):
saving the same (hex24, ts, fields) twice equals saving it once, saving
different fields at an existing key replaces the record while other keys
are untouched, and any sequence of saves leaves at most one record per
key. -/
theorem save_state_snapshot_upsert (db : HistoryDb) (icao24 : String) (st st2 : AState)
    (ts : ℤ) (k2 : String × ℤ) :
    save_state_snapshot (save_state_snapshot db icao24 st ts) icao24 st ts =
      save_state_snapshot db icao24 st ts ∧
    dbLookup (save_state_snapshot db icao24 st2 ts) (icao24.toUpper, ts) =
      some (snapshotRow st2) ∧
    (k2 ≠ (icao24.toUpper, ts) →
      dbLookup (save_state_snapshot db icao24 st2 ts) k2 = dbLookup db k2) ∧
    (∀ ops : List (String × AState × ℤ),
      ((applySnapshots [] ops).map (fun r => r.1)).Nodup) := by
  refine ⟨?_, ?_, ?_, fun ops => applySnapshots_keys_nodup ops [] (by simp)⟩
  · simp only [save_state_snapshot, List.filter_cons]
    have h1 : decide (((icao24.toUpper, ts), snapshotRow st).1 ≠ (icao24.toUpper, ts)) =
        false := by simp
    rw [h1]
    simp only [Bool.false_eq_true, if_false, List.filter_filter]
    rw [List.filter_congr (fun a _ => by rw [Bool.and_self])]
  · simp [dbLookup, save_state_snapshot, List.find?_cons]
  · intro hne
    simp only [dbLookup, save_state_snapshot, List.find?_cons]
    have h1 : decide (((icao24.toUpper, ts), snapshotRow st2).1 = k2) = false := by
      simp only [decide_eq_false_iff_not]
      exact fun hc => hne (hc ▸ rfl)
    rw [h1]
    simp only [Bool.false_eq_true, if_false]
    rw [hist_find_filter_ne db (icao24.toUpper, ts) k2 hne]

/-- Witness for C7 at a concrete store, aircraft and timestamp. -/
theorem save_state_snapshot_upsert_witness :
    save_state_snapshot (save_state_snapshot [] "abc12f" {} 5) "abc12f" {} 5 =
      save_state_snapshot [] "abc12f" {} 5 ∧
    dbLookup (save_state_snapshot [] "abc12f" {} 5) ("XYZ", 0) = dbLookup [] ("XYZ", 0) :=
  ⟨(save_state_snapshot_upsert [] "abc12f" {} {} 5 ("XYZ", 0)).1,
   (save_state_snapshot_upsert [] "abc12f" {} {} 5 ("XYZ", 0)).2.2.1
     (fun hc => absurd (congrArg Prod.snd hc) (by decide))⟩

/-- Everything check_flight_pattern emits is either the erratic_heading
record (under its guards) or the hovering record. -/
theorem check_flight_pattern_mem_cases (icao24 : String) (cur : AState)
    (history : List AState) (a : Anomaly)
    (ha : a ∈ check_flight_pattern icao24 cur history) :
    (¬ history.length < 3 ∧
      3 ≤ ((headingChanges history).filter (fun c => decide (90 < c))).length ∧
      a.atype = "erratic_heading" ∧ a.severity = "MEDIUM") ∨
    (a.atype = "hovering_high_altitude" ∧ a.severity = "LOW") := by
  unfold check_flight_pattern at ha
  split at ha
  · exact absurd ha (List.not_mem_nil a)
  · rename_i hlen
    simp only [List.mem_append] at ha
    rcases ha with h | h
    · split at h
      · rename_i hC
        rcases List.mem_singleton.mp h with rfl
        exact Or.inl ⟨hlen, hC, rfl, rfl⟩
      · exact absurd h (List.not_mem_nil a)
    · right
      split at h
      · split at h
        · split at h
          · rcases List.mem_singleton.mp h with rfl
            exact ⟨rfl, rfl⟩
          · exact absurd h (List.not_mem_nil a)
        · exact absurd h (List.not_mem_nil a)
      · exact absurd h (List.not_mem_nil a)

/-- Claim C6: with at least the minimum 3 history entries, an
erratic_heading anomaly (severity MEDIUM) is emitted iff at least 3
adjacent-pair heading deltas exceed 90 degrees, each delta computed with
the 360-degree wrap min(|a-b|, 360-|a-b|); in particular adjacent headings
350 and 10 yield delta 20. -/
theorem check_flight_pattern_erratic (icao24 : String) (cur : AState) (history : List AState) :
    ((∃ a ∈ check_flight_pattern icao24 cur history, a.atype = "erratic_heading") ↔
      (3 ≤ history.length ∧
        3 ≤ ((headingChanges history).filter (fun c => decide (90 < c))).length)) ∧
    (∀ a ∈ check_flight_pattern icao24 cur history,
      a.atype = "erratic_heading" → a.severity = "MEDIUM") ∧
    (∀ x y : ℚ, wrapDelta x y = min |x - y| (360 - |x - y|)) ∧
    wrapDelta 350 10 = 20 := by
  refine ⟨?_, ?_, ?_, ?_⟩
  · constructor
    · rintro ⟨a, ha, hat⟩
      rcases check_flight_pattern_mem_cases icao24 cur history a ha with
        ⟨h1, h2, -, -⟩ | ⟨hty, -⟩
      · exact ⟨by omega, h2⟩
      · rw [hat] at hty
        exact absurd hty (by decide)
    · rintro ⟨h1, h2⟩
      have h3 : ¬ history.length < 3 := by omega
      simp only [check_flight_pattern, if_neg h3, if_pos h2]
      exact ⟨_, List.mem_append_left _ (List.mem_singleton_self _), rfl⟩
  · intro a ha hat
    rcases check_flight_pattern_mem_cases icao24 cur history a ha with
      ⟨-, -, -, hs⟩ | ⟨hty, -⟩
    · exact hs
    · rw [hat] at hty
      exact absurd hty (by decide)
  · intro x y
    rw [wrapDelta, abs_sub_comm y x]
    by_cases hc : 180 < |x - y|
    · rw [if_pos hc, min_eq_right]
      linarith
    · rw [if_neg hc, min_eq_left]
      push_neg at hc
      linarith
  · have h1 : |(10 : ℚ) - 350| = 340 := by
      rw [abs_of_nonpos (by norm_num)]
      norm_num
    rw [wrapDelta, h1, if_pos (by norm_num)]
    norm_num

/-- Witness for C6: headings 10, 190, 10, 190, 10 give four wrap deltas of
180, so the erratic_heading record is emitted. -/
theorem check_flight_pattern_erratic_witness :
    ∃ a ∈ check_flight_pattern "a1b2c3" {}
      [{ heading := some 10 }, { heading := some 190 }, { heading := some 10 },
       { heading := some 190 }, { heading := some 10 }],
      a.atype = "erratic_heading" := by
  apply (check_flight_pattern_erratic "a1b2c3" {}
    [{ heading := some 10 }, { heading := some 190 }, { heading := some 10 },
     { heading := some 190 }, { heading := some 10 }]).1.mpr
  refine ⟨by norm_num, ?_⟩
  have h180 : wrapDelta 10 190 = 180 := by
    rw [wrapDelta]
    rw [show |(190 : ℚ) - 10| = 180 by rw [abs_of_nonneg] <;> norm_num]
    norm_num
  have h180b : wrapDelta 190 10 = 180 := by
    rw [wrapDelta]
    rw [show |(10 : ℚ) - 190| = 180 by rw [abs_of_nonpos] <;> norm_num]
    norm_num
  simp only [headingChanges, List.zip_cons_cons, List.tail_cons, List.zip_nil_right,
    List.filterMap_cons, List.filterMap_nil, h180, h180b]
  norm_num

/-- Claim C5 counterexample: in the state dictionary built by
poll_aircraft_states, provider fields carrying 0, 0.0, false or the empty
string are not preserved as present values: velocity 0, on_ground false,
baro_altitude 0 and an empty callsign all become absent fields. -/
theorem poll_state_zero_fields_cx :
    tupleGet zeroFieldsTuple 9 = PyVal.num 0 ∧
    (pollStateFor zeroFieldsTuple "ABC123" 100).velocity = none ∧
    tupleGet zeroFieldsTuple 8 = PyVal.bool false ∧
    (pollStateFor zeroFieldsTuple "ABC123" 100).on_ground = none ∧
    tupleGet zeroFieldsTuple 7 = PyVal.num 0 ∧
    (pollStateFor zeroFieldsTuple "ABC123" 100).baro_altitude = none ∧
    tupleGet zeroFieldsTuple 1 = PyVal.str "" ∧
    (pollStateFor zeroFieldsTuple "ABC123" 100).callsign = none := by
  decide

/-- Claim C5 (amended): only longitude and latitude survive with falsy
values (their guard is `is not None`, so 0.0 stays present); every other
field of the built state vector is normalised through Python truthiness,
so a provider value of 0, 0.0, false or the empty string becomes an absent
field, while truthy values are preserved unchanged. -/
theorem poll_state_presence_amended (state : List PyVal) (icao24 : String)
    (now : ℚ) (q : ℚ) :
    ((pollStateFor state icao24 now).latitude = some (PyVal.num q) ↔
      tupleGet state 6 = PyVal.num q) ∧
    ((pollStateFor state icao24 now).longitude = some (PyVal.num q) ↔
      tupleGet state 5 = PyVal.num q) ∧
    (tupleGet state 9 = PyVal.num 0 → (pollStateFor state icao24 now).velocity = none) ∧
    (q ≠ 0 → tupleGet state 9 = PyVal.num q →
      (pollStateFor state icao24 now).velocity = some (PyVal.num q)) ∧
    (tupleGet state 8 = PyVal.bool false → (pollStateFor state icao24 now).on_ground = none) ∧
    (tupleGet state 8 = PyVal.bool true →
      (pollStateFor state icao24 now).on_ground = some (PyVal.bool true)) ∧
    (tupleGet state 7 = PyVal.num 0 → (pollStateFor state icao24 now).baro_altitude = none) ∧
    (tupleGet state 1 = PyVal.str "" → (pollStateFor state icao24 now).callsign = none) := by
  refine ⟨?_, ?_, ?_, ?_, ?_, ?_, ?_, ?_⟩
  · show presentField state 6 = some (PyVal.num q) ↔ tupleGet state 6 = PyVal.num q
    rw [presentField]
    by_cases h : tupleGet state 6 = PyVal.pynone <;> simp [h]
  · show presentField state 5 = some (PyVal.num q) ↔ tupleGet state 5 = PyVal.num q
    rw [presentField]
    by_cases h : tupleGet state 5 = PyVal.pynone <;> simp [h]
  · intro h
    show truthyField state 9 = none
    rw [truthyField, h]
    simp [PyVal.truthy]
  · intro hq h
    show truthyField state 9 = some (PyVal.num q)
    rw [truthyField, h]
    simp [PyVal.truthy, hq]
  · intro h
    show truthyField state 8 = none
    rw [truthyField, h]
    simp [PyVal.truthy]
  · intro h
    show truthyField state 8 = some (PyVal.bool true)
    rw [truthyField, h]
    simp [PyVal.truthy]
  · intro h
    show truthyField state 7 = none
    rw [truthyField, h]
    simp [PyVal.truthy]
  · intro h
    show truthyField state 1 = none
    rw [truthyField, h]
    simp [PyVal.truthy]

/-- Witness for the amended C5 at the concrete zero-carrying tuple. -/
theorem poll_state_presence_amended_witness :
    (pollStateFor zeroFieldsTuple "ABC123" 100).velocity = none ∧
    (pollStateFor zeroFieldsTuple "ABC123" 100).on_ground = none ∧
    (pollStateFor zeroFieldsTuple "ABC123" 100).latitude = some (PyVal.num 0) :=
  ⟨(poll_state_presence_amended zeroFieldsTuple "ABC123" 100 0).2.2.1 (by decide),
   (poll_state_presence_amended zeroFieldsTuple "ABC123" 100 0).2.2.2.2.1 (by decide),
   ((poll_state_presence_amended zeroFieldsTuple "ABC123" 100 0).1).mpr (by decide)⟩

/-- The nearest-distance fold reaches a value at most `r` iff the running
best already did or some point of the list is within `r`. -/
theorem nearest_fold_le_iff (d : ℚ → ℚ → ℚ → ℚ → ℚ) (lat lon r : ℚ)
    (l : List (ℚ × ℚ)) : ∀ acc : Option ℚ,
    (∃ m, l.foldl (nearestStep d lat lon) acc = some m ∧ m ≤ r) ↔
      ((∃ a, acc = some a ∧ a ≤ r) ∨ ∃ p ∈ l, d lat lon p.1 p.2 ≤ r) := by
  induction l with
  | nil =>
    intro acc
    simp
  | cons p l ih =>
    intro acc
    rw [List.foldl_cons, ih]
    have hstep : (∃ a, nearestStep d lat lon acc p = some a ∧ a ≤ r) ↔
        ((∃ a, acc = some a ∧ a ≤ r) ∨ d lat lon p.1 p.2 ≤ r) := by
      cases acc with
      | none => simp [nearestStep]
      | some b =>
        by_cases hlt : d lat lon p.1 p.2 < b
        · simp only [nearestStep, if_pos hlt]
          constructor
          · rintro ⟨a, ha, har⟩
            exact Or.inr (by rw [← Option.some.inj ha] at har; exact har)
          · rintro (⟨a, ha, har⟩ | hr)
            · exact ⟨d lat lon p.1 p.2, rfl, le_of_lt (lt_of_lt_of_le hlt
                (by rw [← Option.some.inj ha] at har; exact har))⟩
            · exact ⟨d lat lon p.1 p.2, rfl, hr⟩
        · simp only [nearestStep, if_neg hlt]
          push_neg at hlt
          constructor
          · rintro ⟨a, ha, har⟩
            exact Or.inl ⟨a, ha, har⟩
          · rintro (⟨a, ha, har⟩ | hr)
            · exact ⟨a, ha, har⟩
            · exact ⟨b, rfl, le_trans hlt hr⟩
    rw [hstep]
    simp only [List.mem_cons]
    constructor
    · rintro ((hx | hp) | hl)
      · exact Or.inl hx
      · exact Or.inr ⟨p, Or.inl rfl, hp⟩
      · rcases hl with ⟨q, hq, hqr⟩
        exact Or.inr ⟨q, Or.inr hq, hqr⟩
    · rintro (hx | ⟨q, hq | hq, hqr⟩)
      · exact Or.inl (Or.inl hx)
      · exact Or.inl (Or.inr (hq ▸ hqr))
      · exact Or.inr ⟨q, hq, hqr⟩

/-- is_near_airport holds iff some airport of the set is within the
radius. -/
theorem is_near_airport_iff (d : ℚ → ℚ → ℚ → ℚ → ℚ) (airports : List (ℚ × ℚ))
    (lat lon r : ℚ) :
    is_near_airport d airports lat lon r = true ↔
      ∃ p ∈ airports, d lat lon p.1 p.2 ≤ r := by
  have hl := nearest_fold_le_iff d lat lon r airports none
  rw [is_near_airport, distanceToNearestAirport]
  cases h : List.foldl (nearestStep d lat lon) none airports with
  | none =>
    rw [h] at hl
    constructor
    · intro habs
      exact absurd habs (by simp)
    · intro hp
      rcases hl.mpr (Or.inr hp) with ⟨m, hm, -⟩
      exact absurd hm (by simp)
  | some m =>
    rw [h] at hl
    rw [decide_eq_true_iff]
    constructor
    · intro hmr
      rcases hl.mp ⟨m, rfl, hmr⟩ with ⟨a, ha, -⟩ | hp
      · exact absurd ha (by simp)
      · exact hp
    · intro hp
      rcases hl.mpr (Or.inr hp) with ⟨m2, hm2, hm2r⟩
      rw [← Option.some.inj hm2] at hm2r
      exact hm2r

/-- The geo filter suppression condition spelt out: landing suppression
applies exactly to a rapid_descent whose aircraft is found in the current
map with present position and strictly negative vertical rate, near some
airport. -/
theorem suppressAsLanding_iff (d : ℚ → ℚ → ℚ → ℚ → ℚ) (airports : List (ℚ × ℚ))
    (radius_km : ℚ) (cur : List (String × AState)) (a : Anomaly) :
    suppressAsLanding d airports radius_km cur a = true ↔
      (a.atype = "rapid_descent" ∧ ∃ i, a.icao24 = some i ∧ i ≠ "" ∧
        ∃ st, lookupState cur i = some st ∧
        ∃ lat lon vr, st.latitude = some lat ∧ st.longitude = some lon ∧
          st.vertical_rate = some vr ∧ vr < 0 ∧
          ∃ p ∈ airports, d lat lon p.1 p.2 ≤ radius_km) := by
  rw [suppressAsLanding, Bool.and_eq_true, decide_eq_true_iff]
  apply and_congr_right
  intro _
  cases ha : a.icao24 with
  | none => simp
  | some i =>
    by_cases hi : i = ""
    · simp [hi]
    · cases hst : lookupState cur i with
      | none => simp [hst, hi]
      | some st =>
        cases hla : st.latitude with
        | none => simp [hst, hla, hi]
        | some lat =>
          cases hlo : st.longitude with
          | none => simp [hst, hla, hlo, hi]
          | some lon =>
            cases hvr : st.vertical_rate with
            | none => simp [hst, hla, hlo, hvr, hi]
            | some vr =>
              simp [hst, hla, hlo, hvr, hi, is_near_airport_iff]

/-- Claim C2: in the per-tick geo filter, a rapid_descent anomaly is
dropped iff its aircraft's current position is within near_airport_km of
some airport AND its current vertical_rate is strictly negative; a
rapid_descent with non-negative vertical rate is never suppressed, and
anomalies of every other kind pass through unchanged. -/
theorem geo_filter_rapid_descent (d : ℚ → ℚ → ℚ → ℚ → ℚ) (airports : List (ℚ × ℚ))
    (radius_km : ℚ) (cur : List (String × AState)) (anomalies : List Anomaly)
    (a : Anomaly) :
    a ∈ geoFilterAnomalies d airports radius_km cur anomalies ↔
      (a ∈ anomalies ∧
        ¬(a.atype = "rapid_descent" ∧ ∃ i, a.icao24 = some i ∧ i ≠ "" ∧
          ∃ st, lookupState cur i = some st ∧
          ∃ lat lon vr, st.latitude = some lat ∧ st.longitude = some lon ∧
            st.vertical_rate = some vr ∧ vr < 0 ∧
            ∃ p ∈ airports, d lat lon p.1 p.2 ≤ radius_km)) := by
  have hs := suppressAsLanding_iff d airports radius_km cur a
  constructor
  · intro h
    have hm := List.mem_filter.mp h
    refine ⟨hm.1, fun hp => ?_⟩
    have ht : suppressAsLanding d airports radius_km cur a = true := hs.mpr hp
    rw [ht] at hm
    exact absurd hm.2 (by simp)
  · rintro ⟨hm, hnp⟩
    apply List.mem_filter.mpr
    refine ⟨hm, ?_⟩
    cases hb : suppressAsLanding d airports radius_km cur a with
    | true => exact absurd (hs.mp hb) hnp
    | false => simp

/-- Witness for C2: a rapid_descent with climbing vertical rate survives
the filter even right next to an airport. -/
theorem geo_filter_rapid_descent_witness :
    ({ icao24 := some "a1b2c3", atype := "rapid_descent", severity := "CRITICAL",
       details := {} } : Anomaly) ∈
      geoFilterAnomalies (fun _ _ _ _ => 1) [(0, 0)] 5
        [("a1b2c3", { latitude := some 10, longitude := some 20,
                      vertical_rate := some 3 })]
        [{ icao24 := some "a1b2c3", atype := "rapid_descent", severity := "CRITICAL",
           details := {} }] := by
  apply (geo_filter_rapid_descent (fun _ _ _ _ => 1) [(0, 0)] 5
    [("a1b2c3", { latitude := some 10, longitude := some 20,
                  vertical_rate := some 3 })] _ _).mpr
  refine ⟨List.mem_singleton_self _, ?_⟩
  rintro ⟨-, i, hi, -, st, hst, lat, lon, vr, -, -, hvr, hneg, -⟩
  obtain rfl : "a1b2c3" = i := Option.some.inj hi
  simp only [lookupState, List.find?_cons] at hst
  simp at hst
  subst hst
  simp at hvr
  rw [← hvr] at hneg
  norm_num at hneg

/-- Claim C3 counterexample: with three aircraft whose previous on_ground
is true but whose current on_ground is absent (not false), the code still
emits a multiple_launch anomaly, although no aircraft has the transition
on_ground true to false the claim describes. -/
theorem check_multiple_launch_absent_on_ground_cx :
    (check_multiple_launch {} launchCurMap launchPrevMap).length = 1 ∧
    claimLaunches launchCurMap launchPrevMap = [] := by
  have hl : launchesOf launchCurMap launchPrevMap =
      [{ icao24 := "aaa111", timestamp := 100, callsign := none },
       { icao24 := "bbb222", timestamp := 100, callsign := none },
       { icao24 := "ccc333", timestamp := 100, callsign := none }] := rfl
  constructor
  · simp only [check_multiple_launch]
    rw [hl]
    norm_num [listMax, listMin]
  · rfl

/-- The launches list collected by check_multiple_launch, spelt out:
exactly the current-map entries whose previous state exists with truthy
on_ground and whose current on_ground is not present-and-true. -/
theorem launchesOf_mem_iff (cur prev : List (String × AState)) (l : LaunchRec) :
    l ∈ launchesOf cur prev ↔
      ∃ icao st, (icao, st) ∈ cur ∧
        l = { icao24 := icao, timestamp := timeOf st, callsign := st.callsign } ∧
        (∃ q, lookupState prev icao = some q ∧ q.on_ground = some true) ∧
        st.on_ground ≠ some true := by
  rw [launchesOf, List.mem_filterMap]
  constructor
  · rintro ⟨p, hp, hf⟩
    cases hq : lookupState prev p.1 with
    | none =>
      rw [hq] at hf
      exact absurd hf (by simp)
    | some q =>
      rw [hq] at hf
      split at hf
      · rename_i pst hpst
        obtain rfl : q = pst := Option.some.inj hpst
        split at hf
        · rename_i hcond
          exact ⟨p.1, p.2, hp, (Option.some.inj hf).symm, ⟨q, hq, hcond.1⟩, hcond.2⟩
        · exact absurd hf (by simp)
      · rename_i hnone
        exact absurd hnone (by simp)
  · rintro ⟨icao, st, hmem, rfl, ⟨q, hq, hqg⟩, hst⟩
    refine ⟨(icao, st), hmem, ?_⟩
    dsimp only
    rw [hq]
    show (if q.on_ground = some true ∧ ¬st.on_ground = some true then
        some ({ icao24 := icao, timestamp := timeOf st,
                callsign := st.callsign } : LaunchRec)
      else none) =
      some ({ icao24 := icao, timestamp := timeOf st,
              callsign := st.callsign } : LaunchRec)
    rw [if_pos ⟨hqg, hst⟩]

/-- Claim C3 (amended): the cross-fleet check collects the hexes whose
previous on_ground is true and whose current on_ground is not true (false
or absent; aircraft with missing previous state are ignored), and emits
exactly one fleet-level anomaly with icao24 null, severity CRITICAL,
details.aircraft_count and details.time_span_seconds iff at least 3 such
transitions occur with max(ts) - min(ts) within the window; otherwise it
emits nothing. -/
theorem check_multiple_launch_amended (cfg : DetectorCfg)
    (cur prev : List (String × AState)) :
    ((check_multiple_launch cfg cur prev ≠ []) ↔
      (3 ≤ (launchesOf cur prev).length ∧
        listMax ((launchesOf cur prev).map (fun l => l.timestamp)) -
          listMin ((launchesOf cur prev).map (fun l => l.timestamp)) ≤
          cfg.multi_launch_window_seconds)) ∧
    (∀ a ∈ check_multiple_launch cfg cur prev,
      a.icao24 = none ∧ a.atype = "multiple_launch" ∧ a.severity = "CRITICAL" ∧
      a.details.aircraft_count = some (launchesOf cur prev).length ∧
      a.details.time_span_seconds =
        some (listMax ((launchesOf cur prev).map (fun l => l.timestamp)) -
          listMin ((launchesOf cur prev).map (fun l => l.timestamp)))) ∧
    (check_multiple_launch cfg cur prev).length ≤ 1 ∧
    (∀ l, l ∈ launchesOf cur prev ↔
      ∃ icao st, (icao, st) ∈ cur ∧
        l = { icao24 := icao, timestamp := timeOf st, callsign := st.callsign } ∧
        (∃ q, lookupState prev icao = some q ∧ q.on_ground = some true) ∧
        st.on_ground ≠ some true) := by
  refine ⟨?_, ?_, ?_, launchesOf_mem_iff cur prev⟩
  · rw [check_multiple_launch]
    by_cases h3 : 3 ≤ (launchesOf cur prev).length
    · rw [if_pos h3]
      by_cases hspan : listMax ((launchesOf cur prev).map (fun l => l.timestamp)) -
          listMin ((launchesOf cur prev).map (fun l => l.timestamp)) ≤
          cfg.multi_launch_window_seconds
      · rw [if_pos hspan]
        simp [h3, hspan]
      · rw [if_neg hspan]
        simp [hspan]
    · rw [if_neg h3]
      simp [h3]
  · intro a ha
    rw [check_multiple_launch] at ha
    split at ha
    · dsimp only at ha
      split at ha
      · rcases List.mem_singleton.mp ha with rfl
        exact ⟨rfl, rfl, rfl, rfl, rfl⟩
      · exact absurd ha (List.not_mem_nil a)
    · exact absurd ha (List.not_mem_nil a)
  · rw [check_multiple_launch]
    split
    · dsimp only
      split
      · simp
      · simp
    · simp

/-- Witness for the amended C3 at the concrete three-launch input. -/
theorem check_multiple_launch_amended_witness :
    check_multiple_launch {} launchCurMap launchPrevMap ≠ [] := by
  have hl : launchesOf launchCurMap launchPrevMap =
      [{ icao24 := "aaa111", timestamp := 100, callsign := none },
       { icao24 := "bbb222", timestamp := 100, callsign := none },
       { icao24 := "ccc333", timestamp := 100, callsign := none }] := rfl
  apply (check_multiple_launch_amended {} launchCurMap launchPrevMap).1.mpr
  refine ⟨?_, ?_⟩
  · rw [hl]
    norm_num
  · rw [hl]
    norm_num [listMax, listMin]

/-- Under physical (non-negative) speeds, the sampled baseline velocities
(the strictly positive ones) are exactly the non-null non-zero ones. -/
theorem posVelocities_eq_nonzeroVels (l : List AState)
    (hv : ∀ h ∈ l, 0 ≤ h.velocity.getD 0) :
    posVelocities l = nonzeroVels l := by
  rw [posVelocities, nonzeroVels]
  apply List.filterMap_congr
  intro x hx
  have hx0 := hv x hx
  cases hxv : x.velocity with
  | none => simp [hxv]
  | some v =>
    rw [hxv, Option.getD_some] at hx0
    by_cases hv0 : v = 0
    · subst hv0
      simp [hxv]
    · have hvpos : 0 < v := lt_of_le_of_ne hx0 (Ne.symm hv0)
      simp [hxv, hvpos, hv0]

/-- The baseline window is a sublist of the history. -/
theorem baselineStates_sublist (history : List AState) :
    List.Sublist (baselineStates history) history := by
  rw [baselineStates]
  split
  · exact List.Sublist.trans (List.take_sublist _ _) (List.drop_sublist _ _)
  · exact List.take_sublist _ _

/-- Claim C4: for an aircraft with a present current velocity (all
velocities being physical, non-negative numbers), a sudden_speed_increase
anomaly (severity MEDIUM) is emitted iff the history has at least 2
entries, the baseline (mean of the non-null non-zero velocities of
history[-4:-1], falling back to history[:-1] below 4 entries) is positive,
the current speed in knots exceeds 30, the percent increase over the
baseline exceeds 60, and the absolute increase exceeds 20 knots. -/
theorem check_speed_sudden_increase (cfg : DetectorCfg) (icao24 : String)
    (cur : AState) (prev : Option AState) (history : List AState)
    (hv : ∀ h ∈ history, 0 ≤ h.velocity.getD 0) :
    ((∃ a ∈ check_speed_anomaly cfg icao24 cur prev history,
        a.atype = "sudden_speed_increase") ↔
      (∃ vms, cur.velocity = some vms ∧ 2 ≤ history.length ∧
        nonzeroVels (baselineStates history) ≠ [] ∧
        0 < (nonzeroVels (baselineStates history)).sum /
          ((nonzeroVels (baselineStates history)).length : ℚ) ∧
        30 < vms * knotsPerMs ∧
        60 < ((vms - (nonzeroVels (baselineStates history)).sum /
              ((nonzeroVels (baselineStates history)).length : ℚ)) /
            ((nonzeroVels (baselineStates history)).sum /
              ((nonzeroVels (baselineStates history)).length : ℚ))) * 100 ∧
        20 < vms * knotsPerMs - ((nonzeroVels (baselineStates history)).sum /
            ((nonzeroVels (baselineStates history)).length : ℚ)) * knotsPerMs)) ∧
    (∀ a ∈ check_speed_anomaly cfg icao24 cur prev history,
      a.atype = "sudden_speed_increase" → a.severity = "MEDIUM") := by
  have heq : posVelocities (baselineStates history) =
      nonzeroVels (baselineStates history) :=
    posVelocities_eq_nonzeroVels _
      (fun h hm => hv h ((baselineStates_sublist history).subset hm))
  cases hcv : cur.velocity with
  | none =>
    constructor
    · constructor
      · rintro ⟨a, ha, -⟩
        rw [check_speed_anomaly, hcv] at ha
        exact absurd ha (by simp)
      · rintro ⟨vms, hvms, -⟩
        exact absurd hvms (by simp)
    · intro a ha hat
      rw [check_speed_anomaly, hcv] at ha
      exact absurd ha (by simp)
  | some vms =>
    constructor
    · constructor
      · rintro ⟨a, ha, hat⟩
        simp only [check_speed_anomaly, hcv, heq, List.mem_append] at ha
        rcases ha with h | h
        · split at h
          · rcases List.mem_singleton.mp h with rfl
            exact absurd hat (by simp)
          · exact absurd h (List.not_mem_nil a)
        · split at h
          · rename_i h2
            split at h
            · exact absurd h (List.not_mem_nil a)
            · rename_i hbe
              split at h
              · rename_i hc1
                split at h
                · rename_i hc2
                  rcases List.mem_singleton.mp h with rfl
                  refine ⟨vms, rfl, h2, ?_, hc1.1, hc1.2, hc2.1, hc2.2⟩
                  intro hnil
                  rw [hnil] at hbe
                  exact hbe rfl
                · exact absurd h (List.not_mem_nil a)
              · exact absurd h (List.not_mem_nil a)
          · exact absurd h (List.not_mem_nil a)
      · rintro ⟨vms2, hvms2, h2, hbv, havg, h30, h60, h20⟩
        obtain rfl : vms = vms2 := Option.some.inj hvms2
        have hbe : ¬(nonzeroVels (baselineStates history)).isEmpty = true := by
          intro hie
          apply hbv
          cases hq : nonzeroVels (baselineStates history) with
          | nil => rfl
          | cons x xs =>
            rw [hq] at hie
            simp at hie
        simp only [check_speed_anomaly, hcv, heq]
        apply Exists.intro
        constructor
        · apply List.mem_append_right
          rw [if_pos h2, if_neg hbe, if_pos ⟨havg, h30⟩, if_pos ⟨h60, h20⟩]
          exact List.mem_singleton_self _
        · rfl
    · intro a ha hat
      simp only [check_speed_anomaly, hcv, heq, List.mem_append] at ha
      rcases ha with h | h
      · split at h
        · rcases List.mem_singleton.mp h with rfl
          exact absurd hat (by simp)
        · exact absurd h (List.not_mem_nil a)
      · split at h
        · split at h
          · exact absurd h (List.not_mem_nil a)
          · split at h
            · split at h
              · rcases List.mem_singleton.mp h with rfl
                rfl
              · exact absurd h (List.not_mem_nil a)
            · exact absurd h (List.not_mem_nil a)
        · exact absurd h (List.not_mem_nil a)

/-- Witness for C4: baseline 40, 42, 41 m/s with current 90 m/s trips the
sudden speed increase rule. -/
theorem check_speed_sudden_increase_witness :
    ∃ a ∈ check_speed_anomaly {} "a1b2c3" speedCur none speedHist,
      a.atype = "sudden_speed_increase" := by
  apply (check_speed_sudden_increase {} "a1b2c3" speedCur none speedHist (by decide)).1.mpr
  have hb : nonzeroVels (baselineStates speedHist) = [40, 42, 41] := rfl
  refine ⟨90, rfl, by decide, ?_, ?_, ?_, ?_, ?_⟩
  · rw [hb]
    simp
  · rw [hb]
    norm_num
  · norm_num [knotsPerMs]
  · rw [hb]
    norm_num
  · rw [hb]
    norm_num [knotsPerMs]

/-- The rapid-descent loop condition spelt out as a proposition. -/
theorem rdQualifies_iff (cfg : DetectorCfg) (cutoff c : ℚ) (h : AState) :
    rdQualifies cfg cutoff c h = true ↔
      (cutoff ≤ timeOf h ∧ ∃ pa, altOf h = some pa ∧
        cfg.rapid_descent_ft < (pa - c) * ftPerM) := by
  rw [rdQualifies, Bool.and_eq_true, decide_eq_true_iff]
  apply and_congr_right
  intro _
  cases hpa : altOf h with
  | none => simp [hpa]
  | some pa => simp [hpa]

/-- The climb section only ever emits rapid_climb records. -/
theorem climb_anomalies_atype (cfg : DetectorCfg) (icao24 : String) (cur : AState) :
    ∀ a ∈ climb_anomalies cfg icao24 cur, a.atype = "rapid_climb" := by
  intro a ha
  unfold climb_anomalies at ha
  split at ha
  · exact absurd ha (List.not_mem_nil a)
  · dsimp only at ha
    split at ha
    · rcases List.mem_singleton.mp ha with rfl
      rfl
    · exact absurd ha (List.not_mem_nil a)

/-- Behaviour of the rapid-descent scan: at most one record; a record
exists iff the current altitude is present and some history entry in the
window drops by more than the threshold; and any record reports the first
qualifying entry of the scan with its exact altitudes. -/
theorem rapid_descent_anomalies_spec (cfg : DetectorCfg) (icao24 : String)
    (cur : AState) (history : List AState) :
    (rapid_descent_anomalies cfg icao24 cur history).length ≤ 1 ∧
    ((rapid_descent_anomalies cfg icao24 cur history ≠ []) ↔
      ∃ c, altOf cur = some c ∧ ∃ h ∈ history,
        timeOf cur - cfg.rapid_descent_window_seconds ≤ timeOf h ∧
        ∃ pa, altOf h = some pa ∧ cfg.rapid_descent_ft < (pa - c) * ftPerM) ∧
    (∀ a ∈ rapid_descent_anomalies cfg icao24 cur history,
      a.atype = "rapid_descent" ∧ a.severity = "CRITICAL" ∧
      ∃ c h, altOf cur = some c ∧
        history.find?
            (rdQualifies cfg (timeOf cur - cfg.rapid_descent_window_seconds) c)
          = some h ∧
        ∃ pa, altOf h = some pa ∧
          a.details.previous_altitude_ft = some (pyround (pa * ftPerM) 0) ∧
          a.details.current_altitude_ft = some (pyround (c * ftPerM) 0) ∧
          a.details.altitude_drop_ft = some (pyround ((pa - c) * ftPerM) 0)) := by
  cases hca : altOf cur with
  | none =>
    have hempty : rapid_descent_anomalies cfg icao24 cur history = [] := by
      simp [rapid_descent_anomalies, hca]
    rw [hempty]
    refine ⟨by simp, ?_, by simp⟩
    simp only [ne_eq, not_true_eq_false, false_iff, not_exists]
    rintro c ⟨hc, -⟩
    exact absurd hc (by simp)
  | some c =>
    by_cases hhe : history.isEmpty
    · have hnil : history = [] := by
        cases history with
        | nil => rfl
        | cons x xs => simp at hhe
      have hempty : rapid_descent_anomalies cfg icao24 cur history = [] := by
        simp [rapid_descent_anomalies, hca, hhe]
      rw [hempty, hnil]
      refine ⟨by simp, ?_, by simp⟩
      simp
    · cases hfind : history.find?
          (rdQualifies cfg (timeOf cur - cfg.rapid_descent_window_seconds) c) with
      | none =>
        have hempty : rapid_descent_anomalies cfg icao24 cur history = [] := by
          simp only [rapid_descent_anomalies, hca, if_neg hhe, hfind]
        rw [hempty]
        refine ⟨by simp, ?_, by simp⟩
        simp only [ne_eq, not_true_eq_false, false_iff, not_exists]
        rintro c2 ⟨hc2, h, hmem, hcut, pa, hpa, hlt⟩
        obtain rfl : c = c2 := Option.some.inj hc2
        have hq : rdQualifies cfg (timeOf cur - cfg.rapid_descent_window_seconds) c h
            = true := (rdQualifies_iff cfg _ c h).mpr ⟨hcut, pa, hpa, hlt⟩
        have hiss : (history.find?
            (rdQualifies cfg (timeOf cur - cfg.rapid_descent_window_seconds) c)).isSome :=
          List.find?_isSome.mpr ⟨h, hmem, hq⟩
        rw [hfind] at hiss
        exact absurd hiss (by simp)
      | some pst =>
        have hmem := List.mem_of_find?_eq_some hfind
        have hq := List.find?_some hfind
        rw [rdQualifies_iff] at hq
        obtain ⟨hcut, pa, hpa, hlt⟩ := hq
        have hout : rapid_descent_anomalies cfg icao24 cur history =
            [{ icao24 := some icao24, atype := "rapid_descent", severity := "CRITICAL",
               details := { altitude_drop_ft := some (pyround ((pa - c) * ftPerM) 0),
                            previous_altitude_ft := some (pyround (pa * ftPerM) 0),
                            current_altitude_ft := some (pyround (c * ftPerM) 0),
                            time_window_seconds :=
                              some cfg.rapid_descent_window_seconds } }] := by
          simp only [rapid_descent_anomalies, hca, if_neg hhe, hfind, hpa]
        rw [hout]
        refine ⟨by simp, ?_, ?_⟩
        · simp only [ne_eq, reduceCtorEq, not_false_eq_true, true_iff]
          exact ⟨c, rfl, pst, hmem, hcut, pa, hpa, hlt⟩
        · intro a ha
          rcases List.mem_singleton.mp ha with rfl
          exact ⟨rfl, rfl, c, pst, rfl, hfind, pa, hpa, rfl, rfl, rfl⟩

/-- Claim C1: per aircraft and tick, at most one rapid_descent record is
emitted; one is emitted (severity CRITICAL) iff the current (baro-or-geo)
altitude is present and some history entry whose timestamp is within the
lookback window drops to the current altitude by more than the threshold
after the metres-to-feet conversion; the record reports the first
qualifying entry found while scanning the history in its stored
(newest-first) order. -/
theorem check_altitude_rapid_descent (cfg : DetectorCfg) (icao24 : String)
    (cur : AState) (prev : Option AState) (history : List AState) :
    ((check_altitude_anomaly cfg icao24 cur prev history).countP
        (fun a => decide (a.atype = "rapid_descent")) ≤ 1) ∧
    ((∃ a ∈ check_altitude_anomaly cfg icao24 cur prev history,
        a.atype = "rapid_descent") ↔
      ∃ c, altOf cur = some c ∧ ∃ h ∈ history,
        timeOf cur - cfg.rapid_descent_window_seconds ≤ timeOf h ∧
        ∃ pa, altOf h = some pa ∧ cfg.rapid_descent_ft < (pa - c) * ftPerM) ∧
    (∀ a ∈ check_altitude_anomaly cfg icao24 cur prev history,
      a.atype = "rapid_descent" →
        a.severity = "CRITICAL" ∧
        ∃ c h, altOf cur = some c ∧
          history.find?
              (rdQualifies cfg (timeOf cur - cfg.rapid_descent_window_seconds) c)
            = some h ∧
          ∃ pa, altOf h = some pa ∧
            a.details.previous_altitude_ft = some (pyround (pa * ftPerM) 0) ∧
            a.details.current_altitude_ft = some (pyround (c * ftPerM) 0) ∧
            a.details.altitude_drop_ft = some (pyround ((pa - c) * ftPerM) 0)) := by
  obtain ⟨hlen, hiff, hdesc⟩ := rapid_descent_anomalies_spec cfg icao24 cur history
  refine ⟨?_, ?_, ?_⟩
  · rw [check_altitude_anomaly, List.countP_append]
    have h1 : (climb_anomalies cfg icao24 cur).countP
        (fun a => decide (a.atype = "rapid_descent")) = 0 := by
      rw [List.countP_eq_zero]
      intro a ha
      rw [climb_anomalies_atype cfg icao24 cur a ha]
      simp
    have h2 := List.countP_le_length
      (l := rapid_descent_anomalies cfg icao24 cur history)
      (p := fun a => decide (a.atype = "rapid_descent"))
    omega
  · rw [check_altitude_anomaly]
    constructor
    · rintro ⟨a, ha, hat⟩
      rcases List.mem_append.mp ha with h | h
      · rw [climb_anomalies_atype cfg icao24 cur a h] at hat
        exact absurd hat (by decide)
      · exact hiff.mp (List.ne_nil_of_mem h)
    · intro hr
      obtain ⟨a, hamem⟩ := List.exists_mem_of_ne_nil _ (hiff.mpr hr)
      exact ⟨a, List.mem_append_right _ hamem, (hdesc a hamem).1⟩
  · intro a ha hat
    rcases List.mem_append.mp (by rw [check_altitude_anomaly] at ha; exact ha) with h | h
    · rw [climb_anomalies_atype cfg icao24 cur a h] at hat
      exact absurd hat (by decide)
    · exact ⟨(hdesc a h).2.1, (hdesc a h).2.2⟩

/-- Witness for C1: a 400 m drop inside the 30 s window emits the
rapid_descent record. -/
theorem check_altitude_rapid_descent_witness :
    ∃ a ∈ check_altitude_anomaly {} "a1b2c3" rdCur none rdHist,
      a.atype = "rapid_descent" := by
  apply (check_altitude_rapid_descent {} "a1b2c3" rdCur none rdHist).2.1.mpr
  refine ⟨800, rfl, { baro_altitude := some 1200, last_contact := some 980 },
    List.mem_singleton_self _, ?_, 1200, rfl, ?_⟩
  · norm_num [timeOf, rdCur]
  · norm_num [ftPerM]

/-- Claim C9 counterexample: a fresh cache hit whose stored body is the
empty JSON object is Python-falsy, so _make_request falls through to the
rate-limited request: the limiter IS invoked on that hit and the returned
body is the network response, not the stored one. -/
theorem make_request_empty_body_cx :
    get_cached_response true [("k", ([], 0))] "k" 60 10 = some [] ∧
    (make_request true true [("k", ([], 0))] "k" 60 10 [("time", 5)]).limiterUsed
      = true ∧
    (make_request true true [("k", ([], 0))] "k" 60 10 [("time", 5)]).body
      = [("time", 5)] := by
  have hget : get_cached_response true [("k", ([], 0))] "k" 60 10 = some [] := by
    show (if (60 : ℚ) < 10 - 0 then (none : Option Body) else some []) = some []
    rw [if_neg (by norm_num)]
  refine ⟨hget, ?_, ?_⟩
  · simp only [make_request, hget]
    rfl
  · simp only [make_request, hget]
    rfl

/-- Claim C9 (amended): a write-then-read round trip within the TTL
returns the stored body; a hit with a truthy (non-empty) body is returned
without invoking the limiter and leaves the cache unchanged; on a miss the
rate-limited request runs and its body is cached; an entry older than the
TTL yields nothing. -/
theorem make_request_cache_amended (cache : Cache) (key : String)
    (b network : Body) (max_age now now2 : ℚ) :
    (now2 - now ≤ max_age →
      get_cached_response true (cache_response true cache key b now) key max_age now2 =
        some b) ∧
    (∀ cached, get_cached_response true cache key max_age now = some cached →
      cached ≠ [] →
      make_request true true cache key max_age now network =
        { body := cached, limiterUsed := false, cacheAfter := cache }) ∧
    (get_cached_response true cache key max_age now = none →
      make_request true true cache key max_age now network =
        { body := network, limiterUsed := true,
          cacheAfter := cache_response true cache key network now }) ∧
    (∀ e, cacheLookup cache key = some e → max_age < now - e.2 →
      get_cached_response true cache key max_age now = none) := by
  refine ⟨?_, ?_, ?_, ?_⟩
  · intro h
    have hlk : cacheLookup (cache_response true cache key b now) key = some (b, now) := by
      simp [cache_response, cacheLookup]
    simp only [get_cached_response, Bool.not_true, Bool.false_eq_true, if_false, hlk]
    rw [if_neg (not_lt.mpr h)]
  · intro cached hc hne
    have hie : ¬ cached.isEmpty = true := by
      cases cached with
      | nil => exact absurd rfl hne
      | cons x xs => simp
    simp only [make_request, hc, if_true]
    rw [if_neg hie]
  · intro h
    simp only [make_request, h]
    rfl
  · intro e he hst
    simp only [get_cached_response, Bool.not_true, Bool.false_eq_true, if_false, he]
    rw [if_pos hst]

/-- Witness for the amended C9: a concrete round trip and a concrete
truthy hit served without the limiter. -/
theorem make_request_cache_amended_witness :
    get_cached_response true (cache_response true [] "k" [("time", 7)] 0) "k" 60 10 =
      some [("time", 7)] ∧
    make_request true true [("k", ([("time", 7)], 0))] "k" 60 10 [("x", 1)] =
      { body := [("time", 7)], limiterUsed := false,
        cacheAfter := [("k", ([("time", 7)], 0))] } := by
  constructor
  · exact (make_request_cache_amended [] "k" [("time", 7)] [("x", 1)] 60 0 10).1
      (by norm_num)
  · have hg : get_cached_response true [("k", ([("time", 7)], 0))] "k" 60 10 =
        some [("time", 7)] := by
      show (if (60 : ℚ) < 10 - 0 then (none : Option Body) else some [("time", 7)]) =
        some [("time", 7)]
      rw [if_neg (by norm_num)]
    exact (make_request_cache_amended [("k", ([("time", 7)], 0))] "k" []
      [("x", 1)] 60 10 10).2.1 [("time", 7)] hg (by simp)

/-- A nonempty filter result singles out a last matching element: the list
splits around it with no later match. -/
theorem filter_last_decomp : ∀ (A : List ℚ) (q : ℚ → Bool) (F : List ℚ) (t : ℚ),
    A.filter q = F ++ [t] →
    ∃ l₁ l₂, A = l₁ ++ t :: l₂ ∧ l₁.filter q = F ∧ l₂.filter q = [] := by
  intro A
  induction A with
  | nil =>
    intro q F t h
    simp at h
  | cons a A ih =>
    intro q F t h
    rw [List.filter_cons] at h
    by_cases hqa : q a = true
    · rw [if_pos hqa] at h
      cases F with
      | nil =>
        rw [List.nil_append] at h
        obtain ⟨rfl, hfl⟩ := List.cons.inj h
        exact ⟨[], A, rfl, rfl, hfl⟩
      | cons f F2 =>
        rw [List.cons_append] at h
        obtain ⟨rfl, h2⟩ := List.cons.inj h
        obtain ⟨l₁, l₂, rfl, hf1, hf2⟩ := ih q F2 t h2
        exact ⟨a :: l₁, l₂, rfl, by rw [List.filter_cons, if_pos hqa, hf1], hf2⟩
    · rw [if_neg hqa] at h
      obtain ⟨l₁, l₂, rfl, hf1, hf2⟩ := ih q F t h
      exact ⟨a :: l₁, l₂, rfl, by rw [List.filter_cons, if_neg hqa, hf1], hf2⟩

/-- The per-admission contract extends by one admission whose own window
count is within the bound. -/
theorem winOK_append (cfg : LimiterCfg) (T : List ℚ) (x : ℚ)
    (hT : winOK cfg T)
    (hx : ((T ++ [x]).filter (fun u => decide (x - u < cfg.period))).length ≤
      cfg.max_calls) :
    winOK cfg (T ++ [x]) := by
  intro l₁ t l₂ heq
  rcases l₂.eq_nil_or_concat with rfl | ⟨l₂2, b, rfl⟩
  · obtain ⟨rfl, hbt⟩ := List.append_inj' heq rfl
    obtain rfl : x = t := List.cons.inj hbt |>.1
    exact hx
  · have heq2 : T ++ [x] = (l₁ ++ t :: l₂2) ++ [b] := by
      rw [heq, List.concat_eq_append]
      simp
    obtain ⟨rfl, -⟩ := List.append_inj' heq2 rfl
    exact hT l₁ t l₂2 rfl

/-- One acquire preserves the limiter state invariant; the admission time
is no earlier than the request. -/
theorem acquire_step (cfg : LimiterCfg) (hmc : 1 ≤ cfg.max_calls) (hp : 0 < cfg.period)
    (T s : List ℚ) (L r : ℚ) (hLS : LimState cfg T s L) (hr : ∀ t ∈ s, t ≤ r) :
    LimState cfg (T ++ [(acquire cfg s r).1]) (acquire cfg s r).2 (acquire cfg s r).1 ∧
    r ≤ (acquire cfg s r).1 := by
  obtain ⟨hsort, hTle, hLmem, hsfil, hslen⟩ := hLS
  have hLr : ∀ t ∈ T, t ≤ r := by
    intro t ht
    have hTne : T ≠ [] := by
      intro h
      rw [h] at ht
      exact List.not_mem_nil t ht
    have hLs : L ∈ s := by
      rw [hsfil]
      apply List.mem_filter.mpr
      refine ⟨hLmem hTne, ?_⟩
      rw [decide_eq_true_iff]
      linarith
    exact le_trans (hTle t ht) (hr L hLs)
  have hTfil : ∀ x : ℚ, r ≤ x →
      s.filter (fun t => decide (x - t < cfg.period)) =
        T.filter (fun t => decide (x - t < cfg.period)) := by
    intro x hx
    rw [hsfil, List.filter_filter]
    apply List.filter_congr
    intro t ht
    by_cases hxt : x - t < cfg.period
    · have hLt : L - t < cfg.period := by
        have hLx : L ≤ x := le_trans (hLr L (hLmem (by
          intro hnil
          rw [hnil] at ht
          exact List.not_mem_nil t ht))) hx
        linarith
      simp [hxt, hLt]
    · simp [hxt]
  have hprune : pruneCalls cfg.period r s =
      s.filter (fun t => decide (r - t < cfg.period)) := rfl
  by_cases hfull : cfg.max_calls ≤ (pruneCalls cfg.period r s).length
  · cases hc1 : pruneCalls cfg.period r s with
    | nil =>
      rw [hc1] at hfull
      exact absurd hfull (by simp; omega)
    | cons t0 rest =>
      have ht0mem : t0 ∈ pruneCalls cfg.period r s := by
        rw [hc1]
        exact List.mem_cons_self t0 rest
      have ht0 : r - t0 < cfg.period := by
        have := (List.mem_filter.mp (hprune ▸ ht0mem)).2
        rwa [decide_eq_true_iff] at this
      have ht0s : t0 ∈ s := (List.mem_filter.mp (hprune ▸ ht0mem)).1
      have hsleep : 0 < cfg.period - (r - t0) + 1 / 10 := by linarith
      have hacq : acquire cfg s r =
          (r + (cfg.period - (r - t0) + 1 / 10),
            pruneCalls cfg.period (r + (cfg.period - (r - t0) + 1 / 10)) (t0 :: rest) ++
              [r + (cfg.period - (r - t0) + 1 / 10)]) := by
        simp only [acquire, hc1]
        rw [if_pos (hc1 ▸ hfull), if_pos hsleep]
      rw [hacq]
      have hrn2 : r ≤ r + (cfg.period - (r - t0) + 1 / 10) := by linarith
      have hn2win : ∀ t, (r + (cfg.period - (r - t0) + 1 / 10)) - t < cfg.period →
          r - t < cfg.period := by
        intro t h
        linarith
      have hfil2 : pruneCalls cfg.period (r + (cfg.period - (r - t0) + 1 / 10))
            (t0 :: rest) =
          s.filter (fun t =>
            decide ((r + (cfg.period - (r - t0) + 1 / 10)) - t < cfg.period)) := by
        rw [show (t0 :: rest) = pruneCalls cfg.period r s from hc1.symm, hprune,
          pruneCalls, List.filter_filter]
        apply List.filter_congr
        intro t ht
        by_cases h2 : (r + (cfg.period - (r - t0) + 1 / 10)) - t < cfg.period
        · simp [h2, hn2win t h2]
        · simp [h2]
          intro h
          exact hn2win t (by linarith)
      refine ⟨⟨?_, ?_, ?_, ?_, ?_⟩, hrn2⟩
      · apply List.pairwise_append.mpr
        refine ⟨hsort, List.pairwise_singleton _ _, ?_⟩
        intro a ha b hb
        rw [List.mem_singleton.mp hb]
        exact le_trans (hLr a ha) hrn2
      · intro t ht
        rcases List.mem_append.mp ht with h | h
        · exact le_trans (hLr t h) hrn2
        · rw [List.mem_singleton.mp h]
      · intro _
        exact List.mem_append_right _ (List.mem_singleton_self _)
      · rw [List.filter_append, hfil2,
          hTfil (r + (cfg.period - (r - t0) + 1 / 10)) hrn2]
        rw [List.filter_cons]
        rw [if_pos (by rw [decide_eq_true_iff]; linarith), List.filter_nil]
      · have ht0drop : ¬((r + (cfg.period - (r - t0) + 1 / 10)) - t0 < cfg.period) := by
          intro h
          linarith
        have : pruneCalls cfg.period (r + (cfg.period - (r - t0) + 1 / 10))
              (t0 :: rest) =
            rest.filter (fun t =>
              decide ((r + (cfg.period - (r - t0) + 1 / 10)) - t < cfg.period)) := by
          rw [pruneCalls, List.filter_cons,
            if_neg (by rw [decide_eq_true_iff]; exact ht0drop)]
        rw [List.length_append, this]
        have h1 : (rest.filter (fun t =>
            decide ((r + (cfg.period - (r - t0) + 1 / 10)) - t < cfg.period))).length ≤
            rest.length := List.length_filter_le _ _
        have h2 : (t0 :: rest).length ≤ s.length := by
          rw [← hc1, hprune]
          exact List.length_filter_le _ _
        simp only [List.length_cons] at h2
        simp only [List.length_singleton]
        omega
  · have hacq : acquire cfg s r = (r, pruneCalls cfg.period r s ++ [r]) := by
      simp only [acquire]
      rw [if_neg hfull]
    rw [hacq]
    refine ⟨⟨?_, ?_, ?_, ?_, ?_⟩, le_refl r⟩
    · apply List.pairwise_append.mpr
      refine ⟨hsort, List.pairwise_singleton _ _, ?_⟩
      intro a ha b hb
      rw [List.mem_singleton.mp hb]
      exact hLr a ha
    · intro t ht
      rcases List.mem_append.mp ht with h | h
      · exact hLr t h
      · rw [List.mem_singleton.mp h]
    · intro _
      exact List.mem_append_right _ (List.mem_singleton_self _)
    · rw [List.filter_append, hprune, hTfil r (le_refl r)]
      rw [List.filter_cons]
      rw [if_pos (by rw [decide_eq_true_iff]; linarith), List.filter_nil]
    · rw [List.length_append]
      simp only [List.length_singleton]
      omega

/-- Running the limiter from a state satisfying the invariant keeps the
per-admission contract over the whole admission trace, which stays
sorted. -/
theorem runLimiter_aux (cfg : LimiterCfg) (hmc : 1 ≤ cfg.max_calls)
    (hp : 0 < cfg.period) :
    ∀ (reqs T s : List ℚ) (L : ℚ), LimState cfg T s L → winOK cfg T →
      goodReqs cfg s reqs = true →
      winOK cfg (T ++ runLimiter cfg s reqs) ∧
      (T ++ runLimiter cfg s reqs).Sorted (fun a b => a ≤ b) := by
  intro reqs
  induction reqs with
  | nil =>
    intro T s L hLS hW hg
    rw [runLimiter, List.append_nil]
    exact ⟨hW, hLS.1⟩
  | cons r rest ih =>
    intro T s L hLS hW hg
    rw [goodReqs, Bool.and_eq_true] at hg
    obtain ⟨hall, hgrest⟩ := hg
    have hr : ∀ t ∈ s, t ≤ r := by
      intro t ht
      have := List.all_eq_true.mp hall t ht
      rwa [decide_eq_true_iff] at this
    obtain ⟨hLS2, hrle⟩ := acquire_step cfg hmc hp T s L r hLS hr
    have hx : ((T ++ [(acquire cfg s r).1]).filter
        (fun u => decide ((acquire cfg s r).1 - u < cfg.period))).length ≤
        cfg.max_calls := by
      rw [← hLS2.2.2.2.1]
      exact hLS2.2.2.2.2
    have hW2 := winOK_append cfg T (acquire cfg s r).1 hW hx
    have hrec := ih (T ++ [(acquire cfg s r).1]) (acquire cfg s r).2
      (acquire cfg s r).1 hLS2 hW2 hgrest
    rw [runLimiter]
    have hassoc : T ++ ((acquire cfg s r).1 :: runLimiter cfg (acquire cfg s r).2 rest) =
        (T ++ [(acquire cfg s r).1]) ++ runLimiter cfg (acquire cfg s r).2 rest := by
      simp
    rw [hassoc]
    exact hrec

/-- A sorted admission trace with the per-admission contract admits at
most max_calls calls in any half-open window of length period. -/
theorem winOK_sliding (cfg : LimiterCfg) (hp : 0 < cfg.period) (A : List ℚ)
    (hs : A.Sorted (fun a b => a ≤ b)) (hw : winOK cfg A) (x : ℚ) :
    (A.filter (fun t => decide (x < t) && decide (t ≤ x + cfg.period))).length ≤
      cfg.max_calls := by
  cases hF : A.filter (fun t => decide (x < t) && decide (t ≤ x + cfg.period)) with
  | nil => simp
  | cons y ys =>
    rcases (y :: ys).eq_nil_or_concat with hnil | ⟨F2, tl, hcat⟩
    · exact absurd hnil (by simp)
    · rw [List.concat_eq_append] at hcat
      obtain ⟨l₁, l₂, rfl, hfl₁, hfl₂⟩ :=
        filter_last_decomp A _ F2 tl (hF.trans hcat)
      have hqtl : (decide (x < tl) && decide (tl ≤ x + cfg.period)) = true := by
        by_contra hq
        have hfilA : List.filter (fun t => decide (x < t) && decide (t ≤ x + cfg.period))
            (l₁ ++ tl :: l₂) = F2 := by
          rw [List.filter_append, List.filter_cons, if_neg hq, hfl₂, hfl₁, List.append_nil]
        have hlen := congrArg List.length ((hfilA.symm.trans hF).trans hcat)
        rw [List.length_append, List.length_singleton] at hlen
        omega
      have htlq : x < tl ∧ tl ≤ x + cfg.period := by
        rw [Bool.and_eq_true, decide_eq_true_iff, decide_eq_true_iff] at hqtl
        exact hqtl
      have hle : ∀ u ∈ l₁, u ≤ tl := by
        have hpw := List.pairwise_append.mp hs
        intro u hu
        exact hpw.2.2 u hu tl (List.mem_cons_self tl l₂)
      have hqin : ∀ u ∈ l₁.filter (fun t =>
          decide (x < t) && decide (t ≤ x + cfg.period)),
          decide (tl - u < cfg.period) = true := by
        intro u hu
        have humem := (List.mem_filter.mp hu).1
        have huq := (List.mem_filter.mp hu).2
        rw [Bool.and_eq_true, decide_eq_true_iff, decide_eq_true_iff] at huq
        rw [decide_eq_true_iff]
        have := hle u humem
        linarith [huq.1, htlq.2]
      have hsubl : List.Sublist
          ((l₁.filter (fun t => decide (x < t) && decide (t ≤ x + cfg.period))).filter
            (fun u => decide (tl - u < cfg.period)))
          (l₁.filter (fun u => decide (tl - u < cfg.period))) :=
        (List.filter_sublist l₁).filter _
      rw [List.filter_eq_self.mpr hqin] at hsubl
      have hlen1 : (l₁.filter (fun t =>
          decide (x < t) && decide (t ≤ x + cfg.period))).length ≤
          (l₁.filter (fun u => decide (tl - u < cfg.period))).length :=
        hsubl.length_le
      have hwin := hw l₁ tl l₂ rfl
      rw [List.filter_append] at hwin
      have htlwin : [tl].filter (fun u => decide (tl - u < cfg.period)) = [tl] := by
        rw [List.filter_cons]
        rw [if_pos (by rw [decide_eq_true_iff]; linarith), List.filter_nil]
      rw [htlwin, List.length_append, List.length_singleton] at hwin
      rw [hcat, List.length_append, List.length_singleton, ← hfl₁]
      omega

/-- Claim C8: for the rate limiter with (max_calls, period), over any
admissible request sequence the admission trace satisfies the acquire
contract (each admission keeps the trailing-window count at or below
max_calls), every sliding half-open window of length period holds at most
max_calls admissions, and a full window blocks until the oldest in-window
timestamp has aged out of the window. -/
theorem rate_limiter_sliding_window (cfg : LimiterCfg) (reqs : List ℚ)
    (hmc : 1 ≤ cfg.max_calls) (hp : 0 < cfg.period)
    (hg : goodReqs cfg [] reqs = true) :
    winOK cfg (runLimiter cfg [] reqs) ∧
    (∀ x, ((runLimiter cfg [] reqs).filter
        (fun t => decide (x < t) && decide (t ≤ x + cfg.period))).length ≤
      cfg.max_calls) ∧
    (∀ calls now t0 rest, pruneCalls cfg.period now calls = t0 :: rest →
      cfg.max_calls ≤ (t0 :: rest).length →
      cfg.period < (acquire cfg calls now).1 - t0) := by
  have hini : LimState cfg [] [] 0 :=
    ⟨List.sorted_nil, by simp, fun h => absurd rfl h, by simp, by simp⟩
  have hwini : winOK cfg [] := by
    intro l₁ t l₂ h
    exact absurd h.symm (by simp)
  obtain ⟨hW, hS⟩ := runLimiter_aux cfg hmc hp reqs [] [] 0 hini hwini hg
  rw [List.nil_append] at hW hS
  refine ⟨hW, fun x => winOK_sliding cfg hp _ hS hW x, ?_⟩
  intro calls now t0 rest hpr hfull
  have ht0 : now - t0 < cfg.period := by
    have hmem : t0 ∈ pruneCalls cfg.period now calls := by
      rw [hpr]
      exact List.mem_cons_self t0 rest
    have := (List.mem_filter.mp hmem).2
    rwa [decide_eq_true_iff] at this
  have hsleep : 0 < cfg.period - (now - t0) + 1 / 10 := by linarith
  have hacq : (acquire cfg calls now).1 = now + (cfg.period - (now - t0) + 1 / 10) := by
    simp only [acquire, hpr]
    rw [if_pos hfull, if_pos hsleep]
  rw [hacq]
  linarith

/-- Witness for C8 at a concrete limiter and request list. -/
theorem rate_limiter_sliding_window_witness :
    goodReqs ⟨1, 10⟩ [] [5] = true ∧
    winOK ⟨1, 10⟩ (runLimiter ⟨1, 10⟩ [] [5]) := by
  have hg : goodReqs ⟨1, 10⟩ [] [5] = true := by
    rw [goodReqs]
    simp [goodReqs]
  exact ⟨hg,
    (rate_limiter_sliding_window ⟨1, 10⟩ [5] (le_refl 1) (by norm_num) hg).1⟩

end MediTrack
